import Mathlib

/-!
The release runner of release.js

A shallow embedding of `src/release.js`.  The script reads `process.env.GH_TOKEN`,
throws when it is falsy, otherwise prints a start line, calls `execSync` on one
command line with `stdio: 'inherit'`, and prints a success line; the `catch`
branch prints an error line and calls `process.exit(1)`.

The process environment is the one seen at line 4, after `dotenv` has been
loaded.  `execSync` belongs to the Node runtime: it is a parameter of the
embedding, which either returns (the child exited with status zero) or throws
an error carrying a message.
-/

namespace Release

/-- The process environment `process.env`: a variable is absent or holds a string. -/
abbrev Env := String → Option String

/-- The options object handed to `execSync`; the script sets only `stdio`. -/
structure ExecOptions where
  stdio : String
  deriving DecidableEq

/-- A JavaScript `Error`, of which the script reads only `message`. -/
structure JsError where
  message : String
  deriving DecidableEq

/-- The observable steps of a run, in the order they happen. -/
inductive Event where
  | consoleLog (line : String)
  | consoleError (line : String)
  | execSync (command : String) (options : ExecOptions)
  | processExit (code : Nat)
  deriving DecidableEq

/-- The runtime's `execSync`: it returns what it captured of the child's standard
output (nothing when the streams are inherited), or throws. -/
abbrev ExecSync := String → ExecOptions → Except JsError (Option String)

/-- JavaScript truthiness of an environment value: `undefined` and `''` are falsy. -/
def toBoolean : Option String → Bool
  | none => false
  | some s => s != ""

/-- String conversion inside a template literal. -/
def templateValue : Option String → String
  | none => "undefined"
  | some s => s

/-- The template literal of line 9. -/
def commandLine (env : Env) : String :=
  "cross-env GH_TOKEN=" ++ templateValue (env "GH_TOKEN") ++ " semantic-release --no-ci"

/-- The options literal of lines 9-11. -/
def execOptions : ExecOptions := ⟨"inherit"⟩

/-- The message of the error thrown at line 6. -/
def missingTokenMessage : String := "GH_TOKEN não encontrado no arquivo .env"

/-- The line printed at line 8. -/
def startLine : String := "Iniciando processo de release..."

/-- The line printed at line 12. -/
def successLine : String := "Release concluído com sucesso!"

/-- The first argument of `console.error` at line 14. -/
def errorLabel : String := "Erro durante o processo de release:"

/-- The line `console.error(a, b)` writes for two strings, the first without a
format directive: both, separated by one space. -/
def formatTwo (a b : String) : String := a ++ " " ++ b

/-- The `try` block, lines 5-12: the events it produced and how it completed. -/
def tryBlock (env : Env) (execSync : ExecSync) : List Event × Except JsError Unit :=
  if !toBoolean (env "GH_TOKEN") then
    ([], Except.error ⟨missingTokenMessage⟩)
  else
    let started := [Event.consoleLog startLine, Event.execSync (commandLine env) execOptions]
    match execSync (commandLine env) execOptions with
    | Except.error e => (started, Except.error e)
    | Except.ok _ => (started ++ [Event.consoleLog successLine], Except.ok ())

/-- The `catch` block, lines 14-15. -/
def catchBlock (error : JsError) : List Event :=
  [Event.consoleError (formatTwo errorLabel error.message), Event.processExit 1]

/-- The whole script, lines 4-16: the trace of one run. -/
def release (env : Env) (execSync : ExecSync) : List Event :=
  match tryBlock env execSync with
  | (events, Except.ok _) => events
  | (events, Except.error e) => events ++ catchBlock e

/-- The exit code of a run: the argument of the first `process.exit`, and 0 when
the script runs off its end. -/
def exitCode : List Event → Nat
  | [] => 0
  | Event.processExit code :: _ => code
  | _ :: rest => exitCode rest

/-- The commands handed to `execSync` during a run. -/
def launches : List Event → List (String × ExecOptions)
  | [] => []
  | Event.execSync command options :: rest => (command, options) :: launches rest
  | _ :: rest => launches rest

/-- The lines the script itself wrote to the console, on either stream. -/
def printed : List Event → List String
  | [] => []
  | Event.consoleLog line :: rest => line :: printed rest
  | Event.consoleError line :: rest => line :: printed rest
  | _ :: rest => printed rest

/-- The lines written with `console.error`. -/
def errorLines : List Event → List String
  | [] => []
  | Event.consoleError line :: rest => line :: errorLines rest
  | _ :: rest => errorLines rest

/-- An environment holding `GH_TOKEN` and nothing else. -/
def envWith (token : String) : Env :=
  fun name => if name = "GH_TOKEN" then some token else none

/-- A child that exits with status zero: `execSync` returns. -/
def execOk : ExecSync := fun _ _ => Except.ok none

/-- A child that fails: `execSync` throws an error with the given message. -/
def execFail (message : String) : ExecSync := fun _ _ => Except.error ⟨message⟩

/-- Node's `execSync` seen from the script, for a child whose streams are inherited
and which ends with exit status `status`: status zero returns without captured
output, any other status throws an error whose message is `Command failed: `
followed by the command string. -/
def nodeExecSync (status : Nat) : ExecSync := fun command _ =>
  if status = 0 then Except.ok none else Except.error ⟨"Command failed: " ++ command⟩

/-- Two `execSync` results are the same outcome for the script when both return, or
both throw the same error. -/
def sameOutcome (r₁ r₂ : Except JsError (Option String)) : Prop :=
  r₁.map (fun _ => ()) = r₂.map (fun _ => ())

/-! ## The shell and cross-env, as far as the command line of line 9 needs them

`execSync` hands its command string to a shell, which splits it into fields and
starts `cross-env`; `cross-env` reads leading `NAME=value` fields as environment
settings and runs the remaining fields as the command.  Neither program is part
of this repository.  The model covers command lines made of letters, digits,
`_`, `-`, `.`, `=` and spaces, on which a shell does nothing but split at the
spaces; it gives no answer on any other command line. -/

/-- Characters a shell reads as ordinary parts of a word, in the model. -/
def ordinaryChar (c : Char) : Bool :=
  c.isAlphanum || c == '_' || c == '-' || c == '.' || c == '='

/-- Split at spaces: `cur` is the field being read, most recent character first. -/
def splitFields : List Char → List Char → List (List Char)
  | cur, [] => if cur.isEmpty then [] else [cur.reverse]
  | cur, c :: cs =>
    if c = ' ' then
      if cur.isEmpty then splitFields [] cs else cur.reverse :: splitFields [] cs
    else splitFields (c :: cur) cs

/-- The fields a shell makes of a command line of ordinary characters and spaces. -/
def shellFields (command : String) : Option (List String) :=
  if command.data.all (fun c => ordinaryChar c || c == ' ') then
    some ((splitFields [] command.data).map String.mk)
  else none

/-- A character matched by `\w`. -/
def isWordChar (c : Char) : Bool := c.isAlphanum || c == '_'

/-- How cross-env recognises a setting in a field without quotes: the first `=` that
directly follows a word character; the name is the run of word characters before
it, the value is the rest of the field.  `run` is the run of word characters just
read, most recent first. -/
def matchSetter : List Char → List Char → Option (String × String)
  | _, [] => none
  | run, c :: cs =>
    if c = '=' then
      if run.isEmpty then matchSetter [] cs else some (String.mk run.reverse, String.mk cs)
    else if isWordChar c then matchSetter (c :: run) cs
    else matchSetter [] cs

/-- The argument parsing of cross-env: leading settings, then the command with its
arguments, starting at the first field that is not a setting. -/
def parseCommand : List String → List (String × String) × List String
  | [] => ([], [])
  | field :: rest =>
    match matchSetter [] field.data with
    | some setting => ((setting :: (parseCommand rest).1), (parseCommand rest).2)
    | none => ([], field :: rest)

/-- What a command line that starts `cross-env` asks of it, where the model
applies: the settings cross-env makes, and the command it then runs. -/
def crossEnvCall (command : String) : Option (List (String × String) × List String) :=
  match shellFields command with
  | some ("cross-env" :: args) => some (parseCommand args)
  | _ => none

/-! ## The script with its state made explicit -/

/-- The state a run works on: the environment object it reads, and the steps the
process has made so far. -/
structure Process where
  env : Env
  trace : List Event

/-- A step that is visible from outside; none of the four kinds of step the script
makes assigns to the environment object. -/
def emit (p : Process) (event : Event) : Process := ⟨p.env, p.trace ++ [event]⟩

/-- The script, lines 4-16, statement by statement on the process state.  Line 5
and line 9 each read `process.env.GH_TOKEN` from the state the statements before
them have left. -/
def releaseProcess (p : Process) (execSync : ExecSync) : Process :=
  if !toBoolean (p.env "GH_TOKEN") then
    emit (emit p (Event.consoleError (formatTwo errorLabel missingTokenMessage)))
      (Event.processExit 1)
  else
    let logged := emit p (Event.consoleLog startLine)
    let launched := emit logged (Event.execSync (commandLine logged.env) execOptions)
    match execSync (commandLine logged.env) execOptions with
    | Except.ok _ => emit launched (Event.consoleLog successLine)
    | Except.error e =>
      emit (emit launched (Event.consoleError (formatTwo errorLabel e.message)))
        (Event.processExit 1)

/-! ## Basic facts about the run -/

theorem toBoolean_eq_false {v : Option String} :
    toBoolean v = false ↔ v = none ∨ v = some "" := by
  cases v with
  | none => simp [toBoolean]
  | some s => simp [toBoolean]

theorem toBoolean_eq_true {v : Option String} :
    toBoolean v = true ↔ ∃ t, v = some t ∧ t ≠ "" := by
  cases v with
  | none => simp [toBoolean]
  | some s => simp [toBoolean]

theorem release_of_falsy (env : Env) (execSync : ExecSync)
    (h : toBoolean (env "GH_TOKEN") = false) :
    release env execSync =
      [Event.consoleError (formatTwo errorLabel missingTokenMessage), Event.processExit 1] := by
  simp [release, tryBlock, h, catchBlock]

theorem release_of_ok (env : Env) (execSync : ExecSync) (out : Option String)
    (h : toBoolean (env "GH_TOKEN") = true)
    (hx : execSync (commandLine env) execOptions = Except.ok out) :
    release env execSync =
      [Event.consoleLog startLine, Event.execSync (commandLine env) execOptions,
        Event.consoleLog successLine] := by
  simp [release, tryBlock, h, hx]

theorem release_of_error (env : Env) (execSync : ExecSync) (e : JsError)
    (h : toBoolean (env "GH_TOKEN") = true)
    (hx : execSync (commandLine env) execOptions = Except.error e) :
    release env execSync =
      [Event.consoleLog startLine, Event.execSync (commandLine env) execOptions,
        Event.consoleError (formatTwo errorLabel e.message), Event.processExit 1] := by
  simp [release, tryBlock, h, hx, catchBlock]

theorem commandLine_of_token (env : Env) (t : String) (h : env "GH_TOKEN" = some t) :
    commandLine env = "cross-env GH_TOKEN=" ++ t ++ " semantic-release --no-ci" := by
  simp [commandLine, h, templateValue]

/-! ## Claims -/

/-- C1: when `GH_TOKEN` is absent or empty, the run hands nothing to `execSync`
(and is the same whatever `execSync` would do), prints exactly one error line,
which is the label followed by the precondition failure description, and exits
with code 1. -/
theorem missing_token_fails_fast (env : Env) (execSync : ExecSync)
    (h : env "GH_TOKEN" = none ∨ env "GH_TOKEN" = some "") :
    launches (release env execSync) = [] ∧
    (∀ other : ExecSync, release env other = release env execSync) ∧
    errorLines (release env execSync) =
      ["Erro durante o processo de release: " ++ "GH_TOKEN não encontrado no arquivo .env"] ∧
    exitCode (release env execSync) = 1 := by
  have hf : toBoolean (env "GH_TOKEN") = false := toBoolean_eq_false.mpr h
  refine ⟨?_, ?_, ?_, ?_⟩
  · rw [release_of_falsy env execSync hf]; rfl
  · intro other
    rw [release_of_falsy env execSync hf, release_of_falsy env other hf]
  · rw [release_of_falsy env execSync hf]; rfl
  · rw [release_of_falsy env execSync hf]; rfl

theorem missing_token_fails_fast_witness :
    (envWith "" "GH_TOKEN" = none ∨ envWith "" "GH_TOKEN" = some "") ∧
    launches (release (envWith "") execOk) = [] ∧
    (∀ other : ExecSync, release (envWith "") other = release (envWith "") execOk) ∧
    errorLines (release (envWith "") execOk) =
      ["Erro durante o processo de release: " ++ "GH_TOKEN não encontrado no arquivo .env"] ∧
    exitCode (release (envWith "") execOk) = 1 :=
  ⟨Or.inr (by simp [envWith]),
    missing_token_fails_fast (envWith "") execOk (Or.inr (by simp [envWith]))⟩

theorem ordinaryChar_ne_space (c : Char) (h : ordinaryChar c = true) : c ≠ ' ' := by
  intro hc
  subst hc
  revert h
  decide

theorem splitFields_word (w : List Char) (hw : ∀ c ∈ w, c ≠ ' ') (cur rest : List Char)
    (hne : cur ≠ [] ∨ w ≠ []) :
    splitFields cur (w ++ ' ' :: rest) = (cur.reverse ++ w) :: splitFields [] rest := by
  induction w generalizing cur with
  | nil =>
    have hcur : cur ≠ [] := by simpa using hne
    simp [splitFields, hcur]
  | cons c w ih =>
    have hc : c ≠ ' ' := hw c (by simp)
    have hrest : ∀ d ∈ w, d ≠ ' ' := fun d hd => hw d (by simp [hd])
    have hstep : splitFields cur (c :: (w ++ ' ' :: rest)) =
        splitFields (c :: cur) (w ++ ' ' :: rest) := by
      simp [splitFields, hc]
    rw [List.cons_append, hstep, ih hrest (c :: cur) (Or.inl (by simp))]
    simp

theorem matchSetter_token (t : String) :
    matchSetter [] ("GH_TOKEN=" ++ t).data = some ("GH_TOKEN", t) := by
  have hd : ("GH_TOKEN=" ++ t).data = 'G' :: 'H' :: '_' :: 'T' :: 'O' :: 'K' :: 'E' :: 'N' :: '=' :: t.data := by
    rw [String.data_append]; rfl
  rw [hd]
  simp +decide [matchSetter, isWordChar]

theorem shellFields_commandLine (t : String)
    (hord : ∀ c ∈ t.data, ordinaryChar c = true) :
    shellFields ("cross-env GH_TOKEN=" ++ t ++ " semantic-release --no-ci") =
      some ["cross-env", "GH_TOKEN=" ++ t, "semantic-release", "--no-ci"] := by
  have hd : ("cross-env GH_TOKEN=" ++ t ++ " semantic-release --no-ci").data =
      "cross-env".data ++ ' ' :: (("GH_TOKEN=".data ++ t.data) ++
        ' ' :: "semantic-release --no-ci".data) := by
    simp only [String.data_append]
    simp
  have hall : (("cross-env GH_TOKEN=" ++ t ++ " semantic-release --no-ci").data.all
      (fun c => ordinaryChar c || c == ' ')) = true := by
    rw [hd]
    simp only [List.all_append, List.all_cons, Bool.and_eq_true]
    refine ⟨by decide, by decide, ⟨by decide, ?_⟩, by decide⟩
    rw [List.all_eq_true]
    intro c hc
    simp [hord c hc]
  have hlit : ∀ c ∈ "GH_TOKEN=".data, ordinaryChar c = true := by decide
  have hw : ∀ c ∈ "GH_TOKEN=".data ++ t.data, c ≠ ' ' := by
    intro c hc
    rcases List.mem_append.mp hc with h | h
    · exact ordinaryChar_ne_space c (hlit c h)
    · exact ordinaryChar_ne_space c (hord c h)
  have hsplit : splitFields [] ("cross-env".data ++ ' ' :: (("GH_TOKEN=".data ++ t.data) ++
      ' ' :: "semantic-release --no-ci".data)) =
      ["cross-env".data, "GH_TOKEN=".data ++ t.data, "semantic-release".data,
        "--no-ci".data] := by
    rw [splitFields_word "cross-env".data (by decide) [] _ (Or.inr (by decide)),
      splitFields_word _ hw [] _ (Or.inr (by simp))]
    have hlast : splitFields [] "semantic-release --no-ci".data =
        ["semantic-release".data, "--no-ci".data] := by decide
    rw [hlast]
    rfl
  unfold shellFields
  rw [if_pos hall, hd, hsplit]
  simp [String.ext_iff]

/-- For a token made of letters, digits, `_`, `-`, `.` and `=`, the command line of
line 9 asks cross-env for the one setting `GH_TOKEN` = token and for the command
`semantic-release --no-ci`. -/
theorem crossEnvCall_ordinary (t : String) (hord : ∀ c ∈ t.data, ordinaryChar c = true) :
    crossEnvCall ("cross-env GH_TOKEN=" ++ t ++ " semantic-release --no-ci") =
      some ([("GH_TOKEN", t)], ["semantic-release", "--no-ci"]) := by
  have hset : matchSetter [] "semantic-release".data = none := by decide
  simp only [crossEnvCall, shellFields_commandLine t hord]
  simp only [parseCommand, matchSetter_token, hset]

/-- C2 (the code at the failing input): with `GH_TOKEN` set to `a b` and a child
that exits with status zero, the script hands over the command line
`cross-env GH_TOKEN=a b semantic-release --no-ci` and prints the success line;
the command line splits into five fields, so cross-env sets `GH_TOKEN` to `a` and
runs `b`, not the release tool with the token `a b`. -/
theorem token_with_space_not_received :
    release (envWith "a b") execOk =
      [Event.consoleLog "Iniciando processo de release...",
        Event.execSync "cross-env GH_TOKEN=a b semantic-release --no-ci" ⟨"inherit"⟩,
        Event.consoleLog "Release concluído com sucesso!"] ∧
    crossEnvCall "cross-env GH_TOKEN=a b semantic-release --no-ci" =
      some ([("GH_TOKEN", "a")], ["b", "semantic-release", "--no-ci"]) ∧
    crossEnvCall "cross-env GH_TOKEN=a b semantic-release --no-ci" ≠
      some ([("GH_TOKEN", "a b")], ["semantic-release", "--no-ci"]) := by
  decide

/-- C3: for every non-empty token the one command line handed to `execSync` is
`cross-env GH_TOKEN=` followed by the token and ` semantic-release --no-ci`; and
in every run whatsoever, each command line handed to `execSync` ends with
` semantic-release --no-ci`. -/
theorem command_line_exact (env : Env) (execSync : ExecSync) (t : String)
    (h : env "GH_TOKEN" = some t) (ht : t ≠ "") :
    launches (release env execSync) =
      [("cross-env GH_TOKEN=" ++ t ++ " semantic-release --no-ci", ⟨"inherit"⟩)] ∧
    (∀ (envAny : Env) (execAny : ExecSync) (command : String) (options : ExecOptions),
      (command, options) ∈ launches (release envAny execAny) →
        ∃ front, command = front ++ " semantic-release --no-ci") := by
  have hb : toBoolean (env "GH_TOKEN") = true := toBoolean_eq_true.mpr ⟨t, h, ht⟩
  constructor
  · rw [← commandLine_of_token env t h]
    cases hx : execSync (commandLine env) execOptions with
    | error e => rw [release_of_error _ _ e hb hx]; rfl
    | ok out => rw [release_of_ok _ _ out hb hx]; rfl
  · intro envAny execAny command options hmem
    cases hbAny : toBoolean (envAny "GH_TOKEN") with
    | false =>
      rw [release_of_falsy _ _ hbAny] at hmem
      simp [launches] at hmem
    | true =>
      have hl : launches (release envAny execAny) = [(commandLine envAny, execOptions)] := by
        cases hx : execAny (commandLine envAny) execOptions with
        | error e => rw [release_of_error _ _ e hbAny hx]; rfl
        | ok out => rw [release_of_ok _ _ out hbAny hx]; rfl
      rw [hl] at hmem
      simp only [List.mem_singleton, Prod.mk.injEq] at hmem
      exact ⟨"cross-env GH_TOKEN=" ++ templateValue (envAny "GH_TOKEN"), by rw [hmem.1]; rfl⟩

theorem command_line_exact_witness :
    launches (release (envWith "tok") execOk) =
      [("cross-env GH_TOKEN=" ++ "tok" ++ " semantic-release --no-ci", ⟨"inherit"⟩)] ∧
    (∀ (envAny : Env) (execAny : ExecSync) (command : String) (options : ExecOptions),
      (command, options) ∈ launches (release envAny execAny) →
        ∃ front, command = front ++ " semantic-release --no-ci") :=
  command_line_exact (envWith "tok") execOk "tok" (by simp [envWith]) (by decide)

/-- C4: with a non-empty token and an `execSync` that returns, the script prints
the start line and then `Release concluído com sucesso!`, prints no error line,
never calls `process.exit`, and so ends with exit code 0. -/
theorem success_path (env : Env) (execSync : ExecSync) (t : String) (out : Option String)
    (h : env "GH_TOKEN" = some t) (ht : t ≠ "")
    (hx : execSync (commandLine env) execOptions = Except.ok out) :
    printed (release env execSync) =
      ["Iniciando processo de release...", "Release concluído com sucesso!"] ∧
    errorLines (release env execSync) = [] ∧
    (∀ code, Event.processExit code ∉ release env execSync) ∧
    exitCode (release env execSync) = 0 := by
  have hb : toBoolean (env "GH_TOKEN") = true := toBoolean_eq_true.mpr ⟨t, h, ht⟩
  rw [release_of_ok env execSync out hb hx]
  refine ⟨rfl, rfl, ?_, rfl⟩
  intro code
  simp

theorem success_path_witness :
    printed (release (envWith "tok") execOk) =
      ["Iniciando processo de release...", "Release concluído com sucesso!"] ∧
    errorLines (release (envWith "tok") execOk) = [] ∧
    (∀ code, Event.processExit code ∉ release (envWith "tok") execOk) ∧
    exitCode (release (envWith "tok") execOk) = 0 :=
  success_path (envWith "tok") execOk "tok" none (by simp [envWith]) (by decide) rfl

/-- C5: with a non-empty token and an `execSync` that throws an error `e`, the
script prints the start line and then one error line, the label followed by
`e.message`; it does not print the success line; and it exits with code 1. -/
theorem failure_path (env : Env) (execSync : ExecSync) (t : String) (e : JsError)
    (h : env "GH_TOKEN" = some t) (ht : t ≠ "")
    (hx : execSync (commandLine env) execOptions = Except.error e) :
    printed (release env execSync) =
      ["Iniciando processo de release...",
        "Erro durante o processo de release: " ++ e.message] ∧
    errorLines (release env execSync) =
      ["Erro durante o processo de release: " ++ e.message] ∧
    Event.consoleLog "Release concluído com sucesso!" ∉ release env execSync ∧
    exitCode (release env execSync) = 1 := by
  have hb : toBoolean (env "GH_TOKEN") = true := toBoolean_eq_true.mpr ⟨t, h, ht⟩
  rw [release_of_error env execSync e hb hx]
  refine ⟨rfl, rfl, ?_, rfl⟩
  simp [startLine]

theorem failure_path_witness :
    printed (release (envWith "tok") (execFail "spawn ENOENT")) =
      ["Iniciando processo de release...",
        "Erro durante o processo de release: " ++ "spawn ENOENT"] ∧
    errorLines (release (envWith "tok") (execFail "spawn ENOENT")) =
      ["Erro durante o processo de release: " ++ "spawn ENOENT"] ∧
    Event.consoleLog "Release concluído com sucesso!" ∉
      release (envWith "tok") (execFail "spawn ENOENT") ∧
    exitCode (release (envWith "tok") (execFail "spawn ENOENT")) = 1 :=
  failure_path (envWith "tok") (execFail "spawn ENOENT") "tok" ⟨"spawn ENOENT"⟩
    (by simp [envWith]) (by decide) rfl

/-- C6: over all environments and all behaviours of `execSync`, the exit code is 0
exactly when `GH_TOKEN` holds a non-empty string and `execSync` returns on the
command line, it is 1 in every other case, and it is never anything else. -/
theorem exit_code_spec (env : Env) (execSync : ExecSync) :
    (exitCode (release env execSync) = 0 ↔
      ∃ t out, env "GH_TOKEN" = some t ∧ t ≠ "" ∧
        execSync ("cross-env GH_TOKEN=" ++ t ++ " semantic-release --no-ci") ⟨"inherit"⟩ =
          Except.ok out) ∧
    ((¬ ∃ t out, env "GH_TOKEN" = some t ∧ t ≠ "" ∧
        execSync ("cross-env GH_TOKEN=" ++ t ++ " semantic-release --no-ci") ⟨"inherit"⟩ =
          Except.ok out) → exitCode (release env execSync) = 1) ∧
    (exitCode (release env execSync) = 0 ∨ exitCode (release env execSync) = 1) := by
  cases hb : toBoolean (env "GH_TOKEN") with
  | false =>
    have hex : exitCode (release env execSync) = 1 := by
      rw [release_of_falsy _ _ hb]; rfl
    have hno : ¬ ∃ t out, env "GH_TOKEN" = some t ∧ t ≠ "" ∧
        execSync ("cross-env GH_TOKEN=" ++ t ++ " semantic-release --no-ci") ⟨"inherit"⟩ =
          Except.ok out := by
      rintro ⟨t, out, h, ht, -⟩
      have : toBoolean (env "GH_TOKEN") = true := toBoolean_eq_true.mpr ⟨t, h, ht⟩
      rw [hb] at this
      exact Bool.false_ne_true this
    exact ⟨⟨fun h0 => by rw [hex] at h0; exact absurd h0 (by decide), fun h => absurd h hno⟩,
      fun _ => hex, Or.inr hex⟩
  | true =>
    obtain ⟨t, h, ht⟩ := toBoolean_eq_true.mp hb
    have hc := commandLine_of_token env t h
    cases hx : execSync (commandLine env) execOptions with
    | error e =>
      have hex : exitCode (release env execSync) = 1 := by
        rw [release_of_error _ _ e hb hx]; rfl
      have hno : ¬ ∃ t out, env "GH_TOKEN" = some t ∧ t ≠ "" ∧
          execSync ("cross-env GH_TOKEN=" ++ t ++ " semantic-release --no-ci") ⟨"inherit"⟩ =
            Except.ok out := by
        rintro ⟨t', out, h', -, hx'⟩
        have htt : t' = t := by rw [h] at h'; exact (Option.some.inj h').symm
        subst htt
        rw [← hc] at hx'
        change execSync (commandLine env) execOptions = Except.ok out at hx'
        rw [hx] at hx'
        cases hx'
      exact ⟨⟨fun h0 => by rw [hex] at h0; exact absurd h0 (by decide), fun h => absurd h hno⟩,
        fun _ => hex, Or.inr hex⟩
    | ok out =>
      have hex : exitCode (release env execSync) = 0 := by
        rw [release_of_ok _ _ out hb hx]; rfl
      have hyes : ∃ t out, env "GH_TOKEN" = some t ∧ t ≠ "" ∧
          execSync ("cross-env GH_TOKEN=" ++ t ++ " semantic-release --no-ci") ⟨"inherit"⟩ =
            Except.ok out := by
        refine ⟨t, out, h, ht, ?_⟩
        rw [← hc]
        exact hx
      exact ⟨⟨fun _ => hyes, fun _ => hex⟩, fun hn => absurd hyes hn, Or.inl hex⟩

theorem releaseProcess_env (p : Process) (execSync : ExecSync) :
    (releaseProcess p execSync).env = p.env := by
  unfold releaseProcess
  split
  · rfl
  · simp only [emit]
    split <;> rfl

theorem releaseProcess_trace (p : Process) (execSync : ExecSync) :
    (releaseProcess p execSync).trace = p.trace ++ release p.env execSync := by
  cases hb : toBoolean (p.env "GH_TOKEN") with
  | false =>
    rw [release_of_falsy _ _ hb]
    simp [releaseProcess, hb, emit]
  | true =>
    cases hx : execSync (commandLine p.env) execOptions with
    | error e =>
      rw [release_of_error _ _ e hb hx]
      simp [releaseProcess, hb, emit, hx]
    | ok out =>
      rw [release_of_ok _ _ out hb hx]
      simp [releaseProcess, hb, emit, hx]

/-- C8: a run is determined by the value of `GH_TOKEN` and by the outcome of
`execSync` on the command line: two runs that agree on these two produce the same
trace (the same command, the same console lines, the same exit code), whatever
else differs in their environments or in what `execSync` would do elsewhere.
And a run keeps no state: run on the explicit process state, the script makes
the steps of `release` and leaves the environment it read as it found it, so a
later run started from what the first one left, with the same outcome, makes the
same steps again. -/
theorem run_determined_by_token_and_outcome (env₁ env₂ : Env) (exec₁ exec₂ : ExecSync)
    (henv : env₁ "GH_TOKEN" = env₂ "GH_TOKEN")
    (hout : sameOutcome (exec₁ (commandLine env₁) execOptions)
      (exec₂ (commandLine env₂) execOptions)) :
    release env₁ exec₁ = release env₂ exec₂ ∧
    launches (release env₁ exec₁) = launches (release env₂ exec₂) ∧
    printed (release env₁ exec₁) = printed (release env₂ exec₂) ∧
    exitCode (release env₁ exec₁) = exitCode (release env₂ exec₂) ∧
    (releaseProcess ⟨env₁, []⟩ exec₁).trace = release env₁ exec₁ ∧
    (releaseProcess ⟨env₁, []⟩ exec₁).env = env₁ ∧
    (releaseProcess ⟨(releaseProcess ⟨env₁, []⟩ exec₁).env, []⟩ exec₂).trace =
      (releaseProcess ⟨env₁, []⟩ exec₁).trace := by
  have hcmd : commandLine env₁ = commandLine env₂ := by
    simp [commandLine, henv]
  have hdet : ∀ (envA envB : Env) (execA execB : ExecSync),
      envA "GH_TOKEN" = envB "GH_TOKEN" →
      sameOutcome (execA (commandLine envA) execOptions)
        (execB (commandLine envB) execOptions) →
      release envA execA = release envB execB := by
    intro envA envB execA execB hAB hAB_out
    have hcAB : commandLine envA = commandLine envB := by
      simp [commandLine, hAB]
    cases hb : toBoolean (envB "GH_TOKEN") with
    | false =>
      rw [release_of_falsy envA execA (by rw [hAB]; exact hb), release_of_falsy envB execB hb]
    | true =>
      have hbA : toBoolean (envA "GH_TOKEN") = true := by rw [hAB]; exact hb
      cases hA : execA (commandLine envA) execOptions with
      | error eA =>
        cases hB : execB (commandLine envB) execOptions with
        | error eB =>
          have he : eA = eB := by
            simpa [sameOutcome, hA, hB, Except.map] using hAB_out
          rw [release_of_error _ _ eA hbA hA, release_of_error _ _ eB hb hB, hcAB, he]
        | ok oB =>
          simp [sameOutcome, hA, hB, Except.map] at hAB_out
      | ok oA =>
        cases hB : execB (commandLine envB) execOptions with
        | error eB =>
          simp [sameOutcome, hA, hB, Except.map] at hAB_out
        | ok oB =>
          rw [release_of_ok _ _ oA hbA hA, release_of_ok _ _ oB hb hB, hcAB]
  have hrel : release env₁ exec₁ = release env₂ exec₂ := hdet env₁ env₂ exec₁ exec₂ henv hout
  have hagain : release env₁ exec₂ = release env₁ exec₁ :=
    hdet env₁ env₁ exec₂ exec₁ rfl (by
      have h := hout
      rw [← hcmd] at h
      unfold sameOutcome at h ⊢
      exact h.symm)
  refine ⟨hrel, by rw [hrel], by rw [hrel], by rw [hrel], ?_, ?_, ?_⟩
  · rw [releaseProcess_trace]; rfl
  · rw [releaseProcess_env]
  · rw [releaseProcess_env, releaseProcess_trace, releaseProcess_trace]
    simp only [List.nil_append]
    exact hagain

theorem run_determined_by_token_and_outcome_witness :
    release (envWith "tok") (nodeExecSync 2) =
      release (fun name => if name = "HOME" then some "/root" else envWith "tok" name)
        (execFail "Command failed: cross-env GH_TOKEN=tok semantic-release --no-ci") ∧
    launches (release (envWith "tok") (nodeExecSync 2)) =
      launches (release (fun name => if name = "HOME" then some "/root" else envWith "tok" name)
        (execFail "Command failed: cross-env GH_TOKEN=tok semantic-release --no-ci")) ∧
    printed (release (envWith "tok") (nodeExecSync 2)) =
      printed (release (fun name => if name = "HOME" then some "/root" else envWith "tok" name)
        (execFail "Command failed: cross-env GH_TOKEN=tok semantic-release --no-ci")) ∧
    exitCode (release (envWith "tok") (nodeExecSync 2)) =
      exitCode (release (fun name => if name = "HOME" then some "/root" else envWith "tok" name)
        (execFail "Command failed: cross-env GH_TOKEN=tok semantic-release --no-ci")) ∧
    (releaseProcess ⟨envWith "tok", []⟩ (nodeExecSync 2)).trace =
      release (envWith "tok") (nodeExecSync 2) ∧
    (releaseProcess ⟨envWith "tok", []⟩ (nodeExecSync 2)).env = envWith "tok" ∧
    (releaseProcess ⟨(releaseProcess ⟨envWith "tok", []⟩ (nodeExecSync 2)).env, []⟩
        (execFail "Command failed: cross-env GH_TOKEN=tok semantic-release --no-ci")).trace =
      (releaseProcess ⟨envWith "tok", []⟩ (nodeExecSync 2)).trace :=
  run_determined_by_token_and_outcome (envWith "tok")
    (fun name => if name = "HOME" then some "/root" else envWith "tok" name)
    (nodeExecSync 2)
    (execFail "Command failed: cross-env GH_TOKEN=tok semantic-release --no-ci")
    (by decide) (by unfold sameOutcome; rfl)

/-- C9: the trace of every run is one of three sequences: the error line and
`process.exit(1)` when `GH_TOKEN` is absent or empty; the start line, the launch
and the success line when `execSync` returns; the start line, the launch, the
error line and `process.exit(1)` when `execSync` throws.  In every run the
command is launched at most once and exactly one of the success line and an
error line is printed. -/
theorem trace_shapes (env : Env) (execSync : ExecSync) :
    (((env "GH_TOKEN" = none ∨ env "GH_TOKEN" = some "") ∧
        release env execSync =
          [Event.consoleError
              ("Erro durante o processo de release: " ++
                "GH_TOKEN não encontrado no arquivo .env"),
            Event.processExit 1]) ∨
      (∃ t out, env "GH_TOKEN" = some t ∧ t ≠ "" ∧
        execSync ("cross-env GH_TOKEN=" ++ t ++ " semantic-release --no-ci") ⟨"inherit"⟩ =
          Except.ok out ∧
        release env execSync =
          [Event.consoleLog "Iniciando processo de release...",
            Event.execSync ("cross-env GH_TOKEN=" ++ t ++ " semantic-release --no-ci")
              ⟨"inherit"⟩,
            Event.consoleLog "Release concluído com sucesso!"]) ∨
      (∃ t e, env "GH_TOKEN" = some t ∧ t ≠ "" ∧
        execSync ("cross-env GH_TOKEN=" ++ t ++ " semantic-release --no-ci") ⟨"inherit"⟩ =
          Except.error e ∧
        release env execSync =
          [Event.consoleLog "Iniciando processo de release...",
            Event.execSync ("cross-env GH_TOKEN=" ++ t ++ " semantic-release --no-ci")
              ⟨"inherit"⟩,
            Event.consoleError ("Erro durante o processo de release: " ++ e.message),
            Event.processExit 1])) ∧
    (launches (release env execSync)).length ≤ 1 ∧
    ((release env execSync).count (Event.consoleLog "Release concluído com sucesso!") +
      (errorLines (release env execSync)).length = 1) := by
  cases hb : toBoolean (env "GH_TOKEN") with
  | false =>
    rw [release_of_falsy _ _ hb]
    refine ⟨Or.inl ⟨toBoolean_eq_false.mp hb, rfl⟩, by simp [launches], ?_⟩
    simp [errorLines]
  | true =>
    obtain ⟨t, h, ht⟩ := toBoolean_eq_true.mp hb
    have hc := commandLine_of_token env t h
    cases hx : execSync (commandLine env) execOptions with
    | error e =>
      rw [release_of_error _ _ e hb hx, hc]
      refine ⟨Or.inr (Or.inr ⟨t, e, h, ht, ?_, rfl⟩), by simp [launches], ?_⟩
      · rw [← hc]; exact hx
      · simp [errorLines, startLine]
    | ok out =>
      rw [release_of_ok _ _ out hb hx, hc]
      refine ⟨Or.inr (Or.inl ⟨t, out, h, ht, ?_, rfl⟩), by simp [launches], ?_⟩
      · rw [← hc]; exact hx
      · simp [errorLines, startLine, successLine]

/-- C10 (as amended): for non-empty tokens and a child that exits with status 0
the script prints the same two lines whatever the token; when the child exits
with a non-zero status the error line is the label followed by the message
`Command failed: ` and the command line, so it contains the token. -/
theorem printed_lines_and_token (t₁ t₂ : String) (n : Nat)
    (h₁ : t₁ ≠ "") (h₂ : t₂ ≠ "") :
    printed (release (envWith t₁) (nodeExecSync 0)) =
      printed (release (envWith t₂) (nodeExecSync 0)) ∧
    printed (release (envWith t₁) (nodeExecSync 0)) =
      ["Iniciando processo de release...", "Release concluído com sucesso!"] ∧
    printed (release (envWith t₁) (nodeExecSync (n + 1))) =
      ["Iniciando processo de release...",
        "Erro durante o processo de release: Command failed: cross-env GH_TOKEN=" ++ t₁ ++
          " semantic-release --no-ci"] := by
  have hb : ∀ t : String, t ≠ "" → toBoolean (envWith t "GH_TOKEN") = true :=
    fun t ht => toBoolean_eq_true.mpr ⟨t, by simp [envWith], ht⟩
  have hc : ∀ t : String, commandLine (envWith t) =
      "cross-env GH_TOKEN=" ++ t ++ " semantic-release --no-ci" :=
    fun t => commandLine_of_token _ t (by simp [envWith])
  have hok : ∀ t : String, nodeExecSync 0 (commandLine (envWith t)) execOptions =
      Except.ok none := fun t => by simp [nodeExecSync]
  have herr : nodeExecSync (n + 1) (commandLine (envWith t₁)) execOptions =
      Except.error ⟨"Command failed: " ++ commandLine (envWith t₁)⟩ := by
    simp [nodeExecSync]
  rw [release_of_ok _ _ none (hb t₁ h₁) (hok t₁), release_of_ok _ _ none (hb t₂ h₂) (hok t₂),
    release_of_error _ _ _ (hb t₁ h₁) herr, hc]
  refine ⟨rfl, rfl, ?_⟩
  simp only [printed, formatTwo, errorLabel, startLine]
  simp [String.ext_iff]

theorem printed_lines_and_token_witness :
    printed (release (envWith "a") (nodeExecSync 0)) =
      printed (release (envWith "b") (nodeExecSync 0)) ∧
    printed (release (envWith "a") (nodeExecSync 0)) =
      ["Iniciando processo de release...", "Release concluído com sucesso!"] ∧
    printed (release (envWith "a") (nodeExecSync (0 + 1))) =
      ["Iniciando processo de release...",
        "Erro durante o processo de release: Command failed: cross-env GH_TOKEN=" ++ "a" ++
          " semantic-release --no-ci"] :=
  printed_lines_and_token "a" "b" 0 (by decide) (by decide)

/-- C10 (counterexample): with a child that exits with status 1, the tokens `a`
and `b` make the script print different lines: the error line spells out the
command line, token included. -/
theorem error_line_reveals_token :
    printed (release (envWith "a") (nodeExecSync 1)) =
      ["Iniciando processo de release...",
        "Erro durante o processo de release: Command failed: cross-env GH_TOKEN=a semantic-release --no-ci"] ∧
    printed (release (envWith "b") (nodeExecSync 1)) =
      ["Iniciando processo de release...",
        "Erro durante o processo de release: Command failed: cross-env GH_TOKEN=b semantic-release --no-ci"] ∧
    printed (release (envWith "a") (nodeExecSync 1)) ≠
      printed (release (envWith "b") (nodeExecSync 1)) := by
  decide

end Release
